import Mathlib

/-!
Verification development for the security-analysis core of the
apk-forensic-toolkit repository (src/core/analyzer.py).

The Python class SecurityAnalyzer is shallowly embedded as pure Lean
functions.  A project tree is modelled as explicit data (manifest document,
source file lists, resource findings); Python exceptions that escape a
function are modelled with Except PyError.  Helper methods that
analyzer.py calls but that are absent from the sources are modelled from
the specification and carry a doc comment saying so.
-/

/-- A Python exception value escaping a function, named by kind. -/
inductive PyError where
  | keyError (key : String)
  | unboundLocal (varName : String)
deriving DecidableEq, Repr

/-- One finding dictionary as built by analyzer.py.  Optional fields model
dictionary keys that some findings omit. -/
structure Finding where
  ftype : String
  severity : String
  description : String
  file : Option String := none
  line : Option Nat := none
  code_snippet : Option String := none
  recommendation : Option String := none
deriving DecidableEq, Repr

/-- A source file in the decompiled tree: a path relative to its scan
directory and its text, with none modelling a file whose read raises. -/
structure SourceFile where
  path : String
  content : Option String
deriving DecidableEq, Repr

/-- A component declaration extracted from the manifest (spec data model). -/
structure ComponentDecl where
  kind : String
  name : String
  exported : Bool
  hasIntentFilter : Bool
  hasPermissionGuard : Bool
  hasBroadFilter : Bool
deriving DecidableEq, Repr

/-- The data of a well-formed manifest document, as the manifest-level
helpers consume it. -/
structure ManifestData where
  permissions : List String
  components : List ComponentDecl
  usesCleartextTraffic : Bool
  disablesCertValidation : Bool
  debuggable : Bool
deriving DecidableEq, Repr

/-- The manifest file on disk: present but malformed (ET.parse raises), or
present and well-formed. -/
inductive ManifestDoc where
  | malformed (msg : String)
  | wellFormed (m : ManifestData)
deriving DecidableEq, Repr

/-- A project directory tree as the analyzer reads it.  none for a manifest
or a source directory models its absence on disk; the list order of files
models the rglob enumeration order. -/
structure Project where
  root : String
  manifest : Option ManifestDoc
  javaFiles : Option (List SourceFile)
  smaliFiles : Option (List SourceFile)
  resourceFindings : List Finding
deriving DecidableEq, Repr

/-- severity_scores lookup of calculate_risk_score: dict access with
default 1 for a severity outside the table. -/
def severity_scores (s : String) : Nat :=
  if s = "CRITICAL" then 10
  else if s = "HIGH" then 7
  else if s = "MEDIUM" then 4
  else if s = "LOW" then 2
  else if s = "INFO" then 1
  else 1

/-- SecurityAnalyzer.calculate_risk_score: accumulate the severity weights
over the list, then clamp at 100. -/
def calculate_risk_score (vulns : List Finding) : Nat :=
  min (vulns.foldl (fun sc v => sc + severity_scores v.severity) 0) 100

/-- The weight sum of a finding list, the specification form of the
accumulation loop. -/
def sumWeights (vulns : List Finding) : Nat :=
  (vulns.map (fun v => severity_scores v.severity)).sum

/-- A CRITICAL finding used for the clamping scenario. -/
def critFinding : Finding :=
  { ftype := "TEST", severity := "CRITICAL", description := "critical finding" }

/-- Case-insensitive literal match at the head of the character list,
returning the remainder on success; this is how the (?i) keyword part of
the sensitive patterns consumes input. -/
def matchKeyword : List Char → List Char → Option (List Char)
  | [], l => some l
  | _ :: _, [] => none
  | c :: cs, x :: xs => if x.toLower = c.toLower then matchKeyword cs xs else none

/-- The character class of the regex escape for whitespace on ASCII text:
space, tab, newline, carriage return, vertical tab, form feed. -/
def isSpaceRE (c : Char) : Bool :=
  c = ' ' || c = '\t' || c = '\n' || c = '\r' || c = Char.ofNat 11 || c = Char.ofNat 12

/-- Greedy consumption of the whitespace star. -/
def skipSpaces : List Char → List Char
  | [] => []
  | c :: cs => if isSpaceRE c then skipSpaces cs else c :: cs

/-- Membership in the quote character class of the patterns, double or
single quote. -/
def isQuoteChar (c : Char) : Bool := c = '"' || c = Char.ofNat 39

/-- After the opening quote: one or more non-quote characters then a
closing quote; seen records whether a non-quote character was consumed. -/
def matchQuoteBody : List Char → Bool → Bool
  | [], _ => false
  | c :: cs, seen => if isQuoteChar c then seen else matchQuoteBody cs true

/-- An opening quote, one or more non-quote characters, a closing quote. -/
def matchQuotedValue : List Char → Bool
  | [] => false
  | q :: rest => isQuoteChar q && matchQuoteBody rest false

/-- The common tail of the three assignment patterns: optional whitespace,
an equals sign, optional whitespace, then a quoted value. -/
def matchAssignValue (l : List Char) : Bool :=
  match skipSpaces l with
  | '=' :: rest => matchQuotedValue (skipSpaces rest)
  | _ => false

/-- One attempt of the password rule at the current position. -/
def passwordAt (l : List Char) : Bool :=
  match matchKeyword "password".toList l with
  | some rest => matchAssignValue rest
  | none => false

/-- One attempt of the token rule at the current position. -/
def tokenAt (l : List Char) : Bool :=
  match matchKeyword "token".toList l with
  | some rest => matchAssignValue rest
  | none => false

/-- One attempt of the api key rule at the current position: api, an
optional underscore or hyphen, key, then the assignment tail. -/
def apiKeyAt (l : List Char) : Bool :=
  match matchKeyword "api".toList l with
  | some rest =>
      let rest1 := match rest with
        | c :: cs => if c = '_' || c = '-' then cs else rest
        | [] => rest
      match matchKeyword "key".toList rest1 with
      | some rest2 => matchAssignValue rest2
      | none => false
  | none => false

/-- Case-sensitive literal match at the current position. -/
def litAt : List Char → List Char → Bool
  | [], _ => true
  | _ :: _, [] => false
  | c :: cs, x :: xs => x = c && litAt cs xs

/-- re.search semantics: the position predicate holds at some suffix. -/
def searchFrom (p : List Char → Bool) : List Char → Bool
  | [] => p []
  | c :: cs => p (c :: cs) || searchFrom p cs

/-- Python substring containment, the in operator on str and the engine of
re.search for literal patterns. -/
def containsSub (needle hay : String) : Bool :=
  searchFrom (litAt needle.toList) hay.toList

/-- Python str.split on a single separator character: the accumulator holds
the current piece reversed; an empty string yields one empty piece. -/
def splitCharAux (sep : Char) : List Char → List Char → List String
  | [], acc => [String.mk acc.reverse]
  | c :: cs, acc =>
      if c = sep then String.mk acc.reverse :: splitCharAux sep cs []
      else splitCharAux sep cs (c :: acc)

/-- Python str.split with a one-character separator. -/
def splitChar (sep : Char) (s : String) : List String := splitCharAux sep s.toList []

/-- The line decomposition content.split of analyze_java_code. -/
def splitLines (s : String) : List String := splitChar '\n' s

/-- Python str.strip: leading and trailing whitespace removed. -/
def trimChars (s : String) : String :=
  String.mk (((s.toList.dropWhile Char.isWhitespace).reverse.dropWhile
    Char.isWhitespace).reverse)

/-- The hardcoded sensitive_patterns table of analyze_java_code: per rule a
matcher on the raw line and the description fragment. -/
def sensitive_patterns : List ((List Char → Bool) × String) :=
  [ (searchFrom passwordAt, "كلمة مرور نصية"),
    (searchFrom apiKeyAt, "مفتاح API"),
    (searchFrom tokenAt, "Token"),
    (searchFrom (litAt "http://".toList), "اتصال HTTP غير آمن"),
    (searchFrom (litAt "android:usesCleartextTraffic=\"true\"".toList),
      "تصريح حركة نصية واضحة") ]

/-- The findings the inner pattern loop of analyze_java_code emits for one
line (relPath is the path relative to the java directory, n the 1-based
line number). -/
def lineFindings (relPath : String) (n : Nat) (line : String) : List Finding :=
  sensitive_patterns.filterMap (fun rule =>
    if rule.fst line.toList then
      some { ftype := "SENSITIVE_DATA", severity := "HIGH",
             description := "معلومات حساسة: " ++ rule.snd,
             file := some relPath, line := some n,
             code_snippet := some (trimChars line) }
    else none)

/-- The per-line scan of analyze_java_code over the remaining lines, n being
the 1-based number of the first of them. -/
def scanLinesFrom (relPath : String) : Nat → List String → List Finding
  | _, [] => []
  | n, line :: rest => lineFindings relPath n line ++ scanLinesFrom relPath (n + 1) rest

/-- SecurityAnalyzer.analyze_webview_security on one file content; fullPath
is the str of the absolute file path that the finding records. -/
def analyze_webview_security (content : String) (fullPath : String) : List Finding :=
  if containsSub "setJavaScriptEnabled(true)" content then
    if containsSub "setAllowFileAccess(false)" content then []
    else
      [{ ftype := "WEBVIEW_INSECURE", severity := "HIGH",
         description := "WebView مع تمكين JavaScript بدون قيود أمنية كافية",
         file := some fullPath,
         recommendation := some "تعطيل JavaScript أو تطبيق سياسات أمنية صارمة" }]
  else []

/-- Modelled from the spec: analyze_database_security is called by
analyze_java_code but its definition is not in the sources.  Per spec 4.3
it is a whole-file structural check, independent of the line patterns, that
flags HIGH the construction of a local data store with world-readable or
world-writable mode flags; like the embedded-browser check it records no
line number. -/
def analyze_database_security (content : String) (fullPath : String) : List Finding :=
  if containsSub "openOrCreateDatabase" content &&
      (containsSub "MODE_WORLD_READABLE" content ||
       containsSub "MODE_WORLD_WRITEABLE" content) then
    [{ ftype := "DATABASE_INSECURE", severity := "HIGH",
       description := "قاعدة بيانات قابلة للقراءة أو الكتابة عالمياً",
       file := some fullPath }]
  else []

/-- The body of the per-file loop of analyze_java_code: an unreadable file
(content none) is skipped by the bare except clause, otherwise the line
scan and both whole-file checks run. -/
def analyze_java_file (javaDir : String) (f : SourceFile) : List Finding :=
  match f.content with
  | none => []
  | some content =>
      scanLinesFrom f.path 1 (splitLines content) ++
      (if containsSub "WebView" content then
        analyze_webview_security content (javaDir ++ "/" ++ f.path)
      else []) ++
      analyze_database_security content (javaDir ++ "/" ++ f.path)

/-- SecurityAnalyzer.analyze_java_code over the rglob file enumeration. -/
def analyze_java_code (javaDir : String) : List SourceFile → List Finding
  | [] => []
  | f :: fs => analyze_java_file javaDir f ++ analyze_java_code javaDir fs

/-- Modelled from the spec: analyze_smali_code is called by analyze_code but
its definition is not in the sources.  Per spec 4.3 the scanner also walks
the low-level bytecode-textual dialect applying the pattern rules
line-by-line with path, 1-based line number and trimmed evidence, skipping
any unreadable file. -/
def analyze_smali_code : List SourceFile → List Finding
  | [] => []
  | f :: fs =>
      (match f.content with
       | none => []
       | some content => scanLinesFrom f.path 1 (splitLines content)) ++
      analyze_smali_code fs

/-- Modelled from the spec: count_files is called by analyze_code but its
definition is not in the sources.  Per spec 4.3 the scanned-file total is
returned for reporting; a missing directory contributes zero. -/
def count_files : Option (List SourceFile) → Nat
  | none => 0
  | some fs => fs.length

/-- The dictionary analyze_code returns. -/
structure CodeAnalysis where
  vulnerabilities : List Finding
  files_analyzed : Nat
deriving DecidableEq, Repr

/-- SecurityAnalyzer.analyze_code: java then smali, each only when its
directory exists, plus the scanned-file total. -/
def analyze_code (p : Project) : CodeAnalysis :=
  let javaVulns := match p.javaFiles with
    | none => []
    | some fs => analyze_java_code (p.root ++ "/java") fs
  let smaliVulns := match p.smaliFiles with
    | none => []
    | some fs => analyze_smali_code fs
  { vulnerabilities := javaVulns ++ smaliVulns,
    files_analyzed := count_files p.javaFiles + count_files p.smaliFiles }

/-- Modelled from the spec: extract_permissions is called by
analyze_manifest and analyze_permissions but its definition is not in the
sources.  Per spec 4.2 it returns the declared permission set of the
parsed document. -/
def extract_permissions (m : ManifestData) : List String := m.permissions

/-- Modelled from the spec: analyze_components is missing from the sources;
per spec 4.2 it extracts the component declarations of the parsed
document. -/
def analyze_components (m : ManifestData) : List ComponentDecl := m.components

/-- Modelled from the spec: check_component_vulnerabilities is missing from
the sources.  Per spec 4.2, exported with no permission guard and an
intent filter is flagged HIGH, exported with no intent filter MEDIUM. -/
def check_component_vulnerabilities (comps : List ComponentDecl) : List Finding :=
  comps.filterMap (fun c =>
    if c.exported && !c.hasPermissionGuard && c.hasIntentFilter then
      some { ftype := "EXPORTED_COMPONENT", severity := "HIGH",
             description := "Exported component exposure: " ++ c.name }
    else if c.exported && !c.hasIntentFilter then
      some { ftype := "EXPORTED_COMPONENT", severity := "MEDIUM",
             description := "Exported component without intent filter: " ++ c.name }
    else none)

/-- Modelled from the spec: analyze_intent_filters is missing from the
sources.  Per spec 4.2, filters accepting broad actions or schemes with no
matching permission are flagged MEDIUM. -/
def analyze_intent_filters (m : ManifestData) : List Finding :=
  m.components.filterMap (fun c =>
    if c.hasBroadFilter && !c.hasPermissionGuard then
      some { ftype := "INTENT_FILTER_RISK", severity := "MEDIUM",
             description := "Broad intent filter: " ++ c.name }
    else none)

/-- Modelled from the spec: check_security_config is missing from the
sources.  Per spec 4.2, flags permitting plaintext traffic, disabling
certificate validation, or enabling debuggable builds are each HIGH. -/
def check_security_config (m : ManifestData) : List Finding :=
  (if m.usesCleartextTraffic then
    [{ ftype := "CLEARTEXT_TRAFFIC", severity := "HIGH",
       description := "Cleartext network traffic permitted" }] else []) ++
  (if m.disablesCertValidation then
    [{ ftype := "CERT_VALIDATION", severity := "HIGH",
       description := "Certificate validation disabled" }] else []) ++
  (if m.debuggable then
    [{ ftype := "DEBUGGABLE", severity := "HIGH",
       description := "Debuggable build enabled" }] else [])

/-- The dictionary analyze_manifest returns: either the error dictionary for
a missing manifest, which has no vulnerabilities key, or the full result. -/
inductive ManifestAnalysis where
  | notFound
  | parsedResult (permissions : List String) (components : List ComponentDecl)
      (vulnerabilities : List Finding) (issues : List String)
deriving DecidableEq, Repr

/-- SecurityAnalyzer.analyze_manifest.  A missing manifest returns the error
dictionary.  When ET.parse raises, the except clause appends the message to
issues, but the return statement then reads the local variables permissions
and components that the failed try block never assigned, so the call itself
raises UnboundLocalError. -/
def analyze_manifest : Option ManifestDoc → Except PyError ManifestAnalysis
  | none => .ok .notFound
  | some (.malformed _) => .error (.unboundLocal "permissions")
  | some (.wellFormed m) =>
      .ok (.parsedResult (extract_permissions m) (analyze_components m)
        (check_component_vulnerabilities (analyze_components m) ++
         analyze_intent_filters m ++ check_security_config m) [])

/-- The fixed dangerous-permission reference list of analyze_permissions. -/
def dangerous_perms : List String :=
  [ "android.permission.READ_SMS",
    "android.permission.SEND_SMS",
    "android.permission.RECORD_AUDIO",
    "android.permission.ACCESS_FINE_LOCATION",
    "android.permission.CAMERA",
    "android.permission.READ_CONTACTS",
    "android.permission.WRITE_CONTACTS" ]

/-- The terminal identifier segment of a permission string. -/
def terminalSegment (perm : String) : String :=
  ((splitChar '.' perm).getLast?).getD perm

/-- Modelled from the spec: detect_used_permissions is called by
analyze_permissions but its definition is not in the sources.  Per spec 4.4
a declared permission counts as used when its terminal identifier segment
occurs textually in some readable file of the source tree, so the declared
list is passed explicitly here.  A missing source directory yields no used
permissions. -/
def detect_used_permissions (javaFiles : Option (List SourceFile))
    (declared : List String) : List String :=
  match javaFiles with
  | none => []
  | some fs => declared.filter (fun perm =>
      fs.any (fun f => match f.content with
        | some content => containsSub (terminalSegment perm) content
        | none => false))

/-- The MEDIUM finding of the dangerous-permission loop. -/
def dangerousFinding (perm : String) : Finding :=
  { ftype := "DANGEROUS_PERMISSION", severity := "MEDIUM",
    description := "إذن خطير: " ++ perm,
    recommendation := some "التحقق من ضرورة هذا الإذن" }

/-- The LOW finding of the unused-permission loop. -/
def unusedFinding (perm : String) : Finding :=
  { ftype := "UNUSED_PERMISSION", severity := "LOW",
    description := "إذن غير مستخدم: " ++ perm,
    recommendation := some "إزالة الإذن غير الضروري" }

/-- The dictionary analyze_permissions returns; permissions is none when the
key is absent, as in the missing-manifest branch. -/
structure PermAnalysis where
  permissions : Option (List String)
  vulnerabilities : List Finding
deriving DecidableEq, Repr

/-- SecurityAnalyzer.analyze_permissions.  With no manifest it returns the
dictionary holding only the vulnerabilities key.  With a malformed manifest
ET.parse raises, the except clause builds the INFO finding, but the return
statement then reads the unassigned local permissions, raising
UnboundLocalError, so the INFO finding is lost.  Otherwise the dangerous
loop runs before the unused loop. -/
def analyze_permissions (p : Project) : Except PyError PermAnalysis :=
  match p.manifest with
  | none => .ok { permissions := none, vulnerabilities := [] }
  | some (.malformed _) => .error (.unboundLocal "permissions")
  | some (.wellFormed m) =>
      let perms := extract_permissions m
      let dangerous := perms.filterMap (fun perm =>
        if dangerous_perms.contains perm then some (dangerousFinding perm) else none)
      let used := detect_used_permissions p.javaFiles perms
      let unused := perms.filterMap (fun perm =>
        if used.contains perm then none else some (unusedFinding perm))
      .ok { permissions := some perms, vulnerabilities := dangerous ++ unused }

/-- The dictionary of the resource phase. -/
structure ResourceAnalysis where
  vulnerabilities : List Finding
deriving DecidableEq, Repr

/-- Modelled from the spec: analyze_resources is called by full_analysis but
its definition is not in the sources.  The spec only records that its
result is stored under the resource_analysis key, so the resource findings
of the project are returned unchanged. -/
def analyze_resources (p : Project) : ResourceAnalysis :=
  { vulnerabilities := p.resourceFindings }

/-- The unified result record of full_analysis. -/
structure AnalysisResult where
  manifest_analysis : ManifestAnalysis
  code_analysis : CodeAnalysis
  permission_analysis : PermAnalysis
  resource_analysis : ResourceAnalysis
  vulnerabilities : List Finding
  security_issues : List String
  risk_score : Nat
deriving DecidableEq, Repr

/-- The subscript access of full_analysis on the manifest result: the error
dictionary of a missing manifest has no vulnerabilities key, so Python
raises KeyError there. -/
def manifestVulnsKey : ManifestAnalysis → Except PyError (List Finding)
  | .notFound => .error (.keyError "vulnerabilities")
  | .parsedResult _ _ vulns _ => .ok vulns

/-- SecurityAnalyzer.full_analysis: the four sub-analyses run in dictionary
literal order, then the combined list is assembled from the manifest, code
and permission vulnerabilities and scored.  security_issues is the instance
attribute that nothing in the class ever appends to. -/
def full_analysis (p : Project) : Except PyError AnalysisResult := do
  let ma ← analyze_manifest p.manifest
  let ca := analyze_code p
  let pa ← analyze_permissions p
  let ra := analyze_resources p
  let manifestVulns ← manifestVulnsKey ma
  let allVulns := manifestVulns ++ ca.vulnerabilities ++ pa.vulnerabilities
  pure { manifest_analysis := ma, code_analysis := ca, permission_analysis := pa,
         resource_analysis := ra, vulnerabilities := allVulns,
         security_issues := [],
         risk_score := calculate_risk_score allVulns }

/-- The manifest vulnerability list as stored inside a successful result. -/
def manifestVulnList : ManifestAnalysis → List Finding
  | .notFound => []
  | .parsedResult _ _ vulns _ => vulns

/-- Lexicographic character-list order for comparing file paths. -/
def charListLT : List Char → List Char → Bool
  | [], [] => false
  | [], _ :: _ => true
  | _ :: _, [] => false
  | a :: as, b :: bs =>
      if a < b then true else if b < a then false else charListLT as bs

/-- The file-then-line key order the spec requires on the returned combined
list, with absent keys ordered first. -/
def findingKeyLE (a b : Finding) : Bool :=
  match a.file, b.file with
  | none, _ => true
  | some _, none => false
  | some fa, some fb =>
      if charListLT fa.toList fb.toList then true
      else if charListLT fb.toList fa.toList then false
      else (a.line.getD 0) ≤ (b.line.getD 0)

/-- Decides whether a finding list is sorted by file path then line. -/
def isSortedByFileLine : List Finding → Bool
  | [] => true
  | [_] => true
  | a :: b :: rest => findingKeyLE a b && isSortedByFileLine (b :: rest)

/-- The combined list of a run result, empty for an aborted run. -/
def combinedOf : Except PyError AnalysisResult → List Finding
  | .ok r => r.vulnerabilities
  | .error _ => []

/-- Whether a run returned a result rather than raising. -/
def runSucceeds : Except PyError AnalysisResult → Bool
  | .ok _ => true
  | .error _ => false

/-- The number of findings of the given type in a list. -/
def countType (t : String) (l : List Finding) : Nat :=
  (l.filter (fun v => v.ftype == t)).length

/-- The findings of a list recorded at the given 1-based line number. -/
def findingsAtLine (k : Nat) (l : List Finding) : List Finding :=
  l.filter (fun v => v.line == some k)

/-- The vulnerability list of a permission-analysis call, empty when the
call raised. -/
def permVulnsOf : Except PyError PermAnalysis → List Finding
  | .ok r => r.vulnerabilities
  | .error _ => []

/-- Whether the terminal segment CAMERA is textually referenced in the
source tree, through the used-permission heuristic. -/
def camReferenced (javaFiles : Option (List SourceFile)) : Bool :=
  (detect_used_permissions javaFiles ["android.permission.CAMERA"]).contains
    "android.permission.CAMERA"

/-- A default result record, used only to read a successful run off an
Except value. -/
def defaultResult : AnalysisResult :=
  { manifest_analysis := .notFound,
    code_analysis := { vulnerabilities := [], files_analyzed := 0 },
    permission_analysis := { permissions := none, vulnerabilities := [] },
    resource_analysis := { vulnerabilities := [] },
    vulnerabilities := [], security_issues := [], risk_score := 0 }

/-- The result record of a run, defaulting when the run raised. -/
def runResult (p : Project) : AnalysisResult :=
  match full_analysis p with
  | .ok r => r
  | .error _ => defaultResult

/-- The risk score of a run result, zero for an aborted run. -/
def riskOf : Except PyError AnalysisResult → Nat
  | .ok r => r.risk_score
  | .error _ => 0

/-- The literal line of the sensitive-data scenario. -/
def pwLine : String := "String password = \"abc123\";"

/-- The finding that line must produce at the given path and line number. -/
def pwFinding (relPath : String) (n : Nat) : Finding :=
  { ftype := "SENSITIVE_DATA", severity := "HIGH",
    description := "معلومات حساسة: كلمة مرور نصية",
    file := some relPath, line := some n,
    code_snippet := some "String password = \"abc123\";" }

/-- An empty project root: no manifest, no java, no smali directory. -/
def emptyProject : Project :=
  { root := "output/app", manifest := none, javaFiles := none,
    smaliFiles := none, resourceFindings := [] }

/-- A project whose manifest file exists but is not well-formed markup. -/
def malformedManifestProject : Project :=
  { root := "output/app", manifest := some (.malformed "mismatched tag"),
    javaFiles := some [], smaliFiles := none, resourceFindings := [] }

/-- A trivial well-formed manifest. -/
def emptyManifest : ManifestData :=
  { permissions := [], components := [], usesCleartextTraffic := false,
    disablesCertValidation := false, debuggable := false }

/-- A project whose java files the rglob enumeration yields in non-sorted
path order, each containing the password line. -/
def unsortedProject : Project :=
  { root := "output/app",
    manifest := some (.wellFormed emptyManifest),
    javaFiles := some [ { path := "b.java", content := some pwLine },
                        { path := "a.java", content := some pwLine } ],
    smaliFiles := none, resourceFindings := [] }

/-- The manifest of the camera permission scenario. -/
def cameraManifest : ManifestData :=
  { permissions := ["android.permission.CAMERA"], components := [],
    usesCleartextTraffic := false, disablesCertValidation := false,
    debuggable := false }

/-- The camera scenario project over an arbitrary source tree. -/
def cameraProject (javaFiles : Option (List SourceFile)) : Project :=
  { root := "output/app", manifest := some (.wellFormed cameraManifest),
    javaFiles := javaFiles, smaliFiles := none, resourceFindings := [] }

theorem foldl_add_weights (vulns : List Finding) (a : Nat) :
    vulns.foldl (fun sc v => sc + severity_scores v.severity) a = a + sumWeights vulns := by
  induction vulns generalizing a with
  | nil => simp [sumWeights]
  | cons v vs ih =>
      simp only [List.foldl_cons, ih, sumWeights, List.map_cons, List.sum_cons]
      omega

theorem calculate_risk_score_eq (vulns : List Finding) :
    calculate_risk_score vulns = min (sumWeights vulns) 100 := by
  simp [calculate_risk_score, foldl_add_weights]

/-- Claim C1: for every list of findings the risk score equals the sum of
the severity weights (CRITICAL=10, HIGH=7, MEDIUM=4, LOW=2, INFO=1)
clamped at 100, hence always lies in [0,100]; and 1000 CRITICAL findings
score exactly 100. -/
theorem risk_score_is_clamped_weight_sum :
    (∀ vulns : List Finding,
        calculate_risk_score vulns = min (sumWeights vulns) 100 ∧
        calculate_risk_score vulns ≤ 100) ∧
    calculate_risk_score (List.replicate 1000 critFinding) = 100 := by
  refine ⟨fun vulns => ⟨calculate_risk_score_eq vulns, ?_⟩, ?_⟩
  · rw [calculate_risk_score_eq]; exact min_le_right _ _
  · rw [calculate_risk_score_eq]
    have h : sumWeights (List.replicate 1000 critFinding) = 10000 := by
      rw [sumWeights, List.map_replicate, List.sum_replicate]
      norm_num [critFinding, severity_scores]
    rw [h]
    omega

/-- Claim C8: appending any single finding never lowers the risk score. -/
theorem risk_score_monotone (vulns : List Finding) (f : Finding) :
    calculate_risk_score vulns ≤ calculate_risk_score (vulns ++ [f]) := by
  rw [calculate_risk_score_eq, calculate_risk_score_eq]
  have h : sumWeights vulns ≤ sumWeights (vulns ++ [f]) := by
    simp [sumWeights]
  exact min_le_min h le_rfl

theorem except_bind_error {ε α β : Type} (e : ε) (f : α → Except ε β) :
    (Except.error e >>= f) = Except.error e := rfl

theorem except_bind_ok {ε α β : Type} (a : α) (f : α → Except ε β) :
    (Except.ok a >>= f) = f a := rfl

/-- Claim C2 (code bug): on an empty project root, full_analysis raises
KeyError when it reads the vulnerabilities key of the manifest error
dictionary, instead of returning a result with empty finding lists and
risk score zero. -/
theorem empty_project_raises_key_error :
    full_analysis emptyProject = Except.error (PyError.keyError "vulnerabilities") := rfl

/-- Claim C3 (code bug): with a manifest that is not well-formed markup,
analyze_manifest raises UnboundLocalError at its return statement instead
of returning the permissions, components and findings record with the
parse failure recorded as an issue. -/
theorem malformed_manifest_raises_unbound_local :
    analyze_manifest (some (ManifestDoc.malformed "mismatched tag"))
      = Except.error (PyError.unboundLocal "permissions") := rfl

/-- Claim C4 counterexample: an exception a sub-analyzer does not catch
escapes full_analysis as the raw UnboundLocalError, not as an
AnalysisError naming the failing phase; no such wrapper exists in the
sources. -/
theorem raw_exception_escapes_orchestrator :
    full_analysis malformedManifestProject
      = Except.error (PyError.unboundLocal "permissions") := rfl

/-- Claim C4 as amended: an exception raised in a sub-analyzer and not
caught inside it propagates out of full_analysis unchanged, so no phase
result is silently dropped, but nothing wraps it in an AnalysisError. -/
theorem sub_analyzer_error_propagates (p : Project) (e : PyError)
    (h : analyze_manifest p.manifest = Except.error e ∨
        ((∃ ma, analyze_manifest p.manifest = Except.ok ma) ∧
          analyze_permissions p = Except.error e)) :
    full_analysis p = Except.error e := by
  rcases h with h | ⟨⟨ma, hma⟩, hp⟩
  · rw [full_analysis, h, except_bind_error]
  · rw [full_analysis, hma, except_bind_ok]
    simp only [hp, except_bind_error]

theorem sub_analyzer_error_propagates_witness :
    full_analysis malformedManifestProject
      = Except.error (PyError.unboundLocal "permissions") :=
  sub_analyzer_error_propagates malformedManifestProject
    (PyError.unboundLocal "permissions") (Or.inl rfl)

/-- Claim C5: an unreadable source file anywhere in the scan enumeration is
skipped: the scan still runs to completion and returns exactly the
findings of all the other files. -/
theorem unreadable_file_skipped (javaDir badPath : String)
    (pre suf : List SourceFile) :
    analyze_java_code javaDir (pre ++ { path := badPath, content := none } :: suf)
      = analyze_java_code javaDir (pre ++ suf) := by
  induction pre with
  | nil => simp [analyze_java_code, analyze_java_file]
  | cons f fs ih =>
      simp only [List.cons_append, analyze_java_code]
      exact congrArg (fun l => analyze_java_file javaDir f ++ l) ih

theorem lineFindings_line_mem (relPath line : String) (n : Nat) (v : Finding)
    (hv : v ∈ lineFindings relPath n line) : v.line = some n := by
  simp only [lineFindings, List.mem_filterMap] at hv
  obtain ⟨rule, -, hr⟩ := hv
  split at hr
  · cases hr; rfl
  · cases hr

theorem findingsAtLine_of_all_line (k n : Nat) (l : List Finding)
    (hne : k ≠ n) (hl : ∀ v ∈ l, v.line = some n) :
    findingsAtLine k l = [] := by
  rw [findingsAtLine, List.filter_eq_nil_iff]
  intro v hv
  rw [hl v hv]
  simp only [beq_iff_eq, Option.some.injEq]
  exact fun hkn => hne hkn.symm

theorem findingsAtLine_lineFindings (relPath line : String) (k n : Nat) (hne : k ≠ n) :
    findingsAtLine k (lineFindings relPath n line) = [] :=
  findingsAtLine_of_all_line k n _ hne
    (fun v hv => lineFindings_line_mem relPath line n v hv)

theorem findingsAtLine_append (k : Nat) (l1 l2 : List Finding) :
    findingsAtLine k (l1 ++ l2) = findingsAtLine k l1 ++ findingsAtLine k l2 := by
  simp [findingsAtLine, List.filter_append]

theorem findingsAtLine_scanLines_lt (relPath : String) (ls : List String) :
    ∀ n k : Nat, k < n → findingsAtLine k (scanLinesFrom relPath n ls) = [] := by
  induction ls with
  | nil => intro n k _; rfl
  | cons line rest ih =>
      intro n k hk
      simp only [scanLinesFrom]
      rw [findingsAtLine_append,
        findingsAtLine_lineFindings relPath line k n (Nat.ne_of_lt hk),
        ih (n + 1) k (Nat.lt_succ_of_lt hk), List.append_nil]

theorem scanLines_pwLine (relPath : String) (suf : List String) (pre : List String) :
    ∀ n : Nat,
      findingsAtLine (n + pre.length) (scanLinesFrom relPath n (pre ++ pwLine :: suf))
        = [pwFinding relPath (n + pre.length)] := by
  induction pre with
  | nil =>
      intro n
      simp only [List.nil_append, List.length_nil, Nat.add_zero, scanLinesFrom]
      rw [findingsAtLine_append,
        show lineFindings relPath n pwLine = [pwFinding relPath n] from rfl,
        findingsAtLine_scanLines_lt relPath suf (n + 1) n (Nat.lt_succ_self n),
        List.append_nil]
      simp [findingsAtLine, pwFinding]
  | cons l pre ih =>
      intro n
      simp only [List.cons_append, scanLinesFrom, List.length_cons]
      rw [findingsAtLine_append,
        findingsAtLine_lineFindings relPath l (n + (pre.length + 1)) n (by omega),
        List.nil_append,
        show n + (pre.length + 1) = (n + 1) + pre.length from by omega]
      exact ih (n + 1)

theorem findingsAtLine_webview (k : Nat) (content fullPath : String) :
    findingsAtLine k (analyze_webview_security content fullPath) = [] := by
  simp only [analyze_webview_security]
  split
  · split
    · rfl
    · rfl
  · rfl

theorem findingsAtLine_database (k : Nat) (content fullPath : String) :
    findingsAtLine k (analyze_database_security content fullPath) = [] := by
  simp only [analyze_database_security]
  split
  · rfl
  · rfl

/-- Claim C6: a source file whose line decomposition contains the literal
password line at 1-based position k yields, among the findings recorded at
line k, exactly the single HIGH sensitive-data finding whose evidence is
the trimmed text of that line. -/
theorem password_line_single_finding (javaDir relPath content : String)
    (pre suf : List String)
    (h : splitLines content = pre ++ pwLine :: suf) :
    findingsAtLine (pre.length + 1)
        (analyze_java_file javaDir { path := relPath, content := some content })
      = [pwFinding relPath (pre.length + 1)] := by
  simp only [analyze_java_file, h]
  rw [findingsAtLine_append, findingsAtLine_append]
  have h1 : findingsAtLine (pre.length + 1)
      (scanLinesFrom relPath 1 (pre ++ pwLine :: suf))
      = [pwFinding relPath (pre.length + 1)] := by
    have hs := scanLines_pwLine relPath suf pre 1
    rw [Nat.add_comm 1 pre.length] at hs
    exact hs
  have h2 : findingsAtLine (pre.length + 1)
      (if containsSub "WebView" content
       then analyze_webview_security content (javaDir ++ "/" ++ relPath)
       else []) = [] := by
    split
    · exact findingsAtLine_webview _ _ _
    · rfl
  rw [h1, h2, findingsAtLine_database, List.append_nil, List.append_nil]

theorem password_line_single_finding_witness :
    findingsAtLine 1
        (analyze_java_file "output/app/java" { path := "A.java", content := some pwLine })
      = [pwFinding "A.java" 1] :=
  password_line_single_finding "output/app/java" "A.java" pwLine [] [] rfl

/-- Claim C7: with CAMERA declared in the manifest, the permission analyzer
always emits exactly one MEDIUM dangerous-permission finding for it, and
exactly one LOW unused-permission finding exactly when the identifier
CAMERA is not textually referenced anywhere in the source tree. -/
theorem camera_permission_findings (javaFiles : Option (List SourceFile)) :
    analyze_permissions (cameraProject javaFiles)
      = Except.ok
          { permissions := some ["android.permission.CAMERA"],
            vulnerabilities :=
              dangerousFinding "android.permission.CAMERA" ::
                (if camReferenced javaFiles then []
                 else [unusedFinding "android.permission.CAMERA"]) } ∧
    countType "DANGEROUS_PERMISSION"
        (permVulnsOf (analyze_permissions (cameraProject javaFiles))) = 1 ∧
    countType "UNUSED_PERMISSION"
        (permVulnsOf (analyze_permissions (cameraProject javaFiles)))
      = (if camReferenced javaFiles then 0 else 1) := by
  have hmain : analyze_permissions (cameraProject javaFiles)
      = Except.ok
          { permissions := some ["android.permission.CAMERA"],
            vulnerabilities :=
              dangerousFinding "android.permission.CAMERA" ::
                (if camReferenced javaFiles then []
                 else [unusedFinding "android.permission.CAMERA"]) } := by
    cases hb : camReferenced javaFiles with
    | true =>
        have hb2 : (detect_used_permissions javaFiles
            ["android.permission.CAMERA"]).contains "android.permission.CAMERA" = true := hb
        simp at hb2
        simp [analyze_permissions, cameraProject, cameraManifest, extract_permissions,
          List.filterMap, hb2, dangerous_perms]
    | false =>
        have hb2 : (detect_used_permissions javaFiles
            ["android.permission.CAMERA"]).contains "android.permission.CAMERA" = false := hb
        simp at hb2
        simp [analyze_permissions, cameraProject, cameraManifest, extract_permissions,
          List.filterMap, hb2, dangerous_perms]
  refine ⟨hmain, ?_, ?_⟩ <;> rw [hmain] <;> cases hb : camReferenced javaFiles <;>
    simp [hb, countType, permVulnsOf, dangerousFinding, unusedFinding]

/-- Claim C9 counterexample: a successful full run whose returned combined
finding list is not sorted by file path then line number; the orchestrator
never sorts it. -/
theorem combined_list_not_sorted :
    runSucceeds (full_analysis unsortedProject) = true ∧
    isSortedByFileLine (combinedOf (full_analysis unsortedProject)) = false :=
  ⟨rfl, rfl⟩

/-- Claim C9 as amended: the full analysis is a deterministic function of
the project tree, so two runs on the unmodified tree return identical
combined finding lists and identical risk scores; the combined list is
however returned in phase and scan order, not sorted by file path and
line number. -/
theorem full_analysis_deterministic (p : Project) (r1 r2 : AnalysisResult)
    (h1 : full_analysis p = Except.ok r1) (h2 : full_analysis p = Except.ok r2) :
    r1.vulnerabilities = r2.vulnerabilities ∧ r1.risk_score = r2.risk_score := by
  rw [h1] at h2
  injection h2 with h
  rw [h]
  exact ⟨rfl, rfl⟩

theorem full_analysis_deterministic_witness :
    (runResult unsortedProject).vulnerabilities
        = (runResult unsortedProject).vulnerabilities ∧
    (runResult unsortedProject).risk_score = (runResult unsortedProject).risk_score :=
  full_analysis_deterministic unsortedProject (runResult unsortedProject)
    (runResult unsortedProject) rfl rfl

theorem manifestVulnList_of_key (ma : ManifestAnalysis) (mv : List Finding)
    (h : manifestVulnsKey ma = Except.ok mv) : manifestVulnList ma = mv := by
  cases ma with
  | notFound => cases h
  | parsedResult a b c d => injection h

/-- Claim C10: a successful run stores as the combined list exactly the
concatenation of the manifest, code and permission findings in that order,
scores exactly that combined list, and the resource-phase findings enter
neither the combined list nor the risk score. -/
theorem combined_list_structure (p : Project) (r : AnalysisResult)
    (h : full_analysis p = Except.ok r) :
    r.vulnerabilities
        = manifestVulnList r.manifest_analysis ++ r.code_analysis.vulnerabilities
            ++ r.permission_analysis.vulnerabilities ∧
    r.risk_score = calculate_risk_score r.vulnerabilities ∧
    ∀ rf : List Finding,
        runSucceeds (full_analysis { p with resourceFindings := rf }) = true ∧
        combinedOf (full_analysis { p with resourceFindings := rf })
          = r.vulnerabilities ∧
        riskOf (full_analysis { p with resourceFindings := rf }) = r.risk_score := by
  cases hma : analyze_manifest p.manifest with
  | error e =>
      rw [full_analysis, hma, except_bind_error] at h
      cases h
  | ok ma =>
      rw [full_analysis, hma, except_bind_ok] at h
      cases hpa : analyze_permissions p with
      | error e =>
          simp only [hpa, except_bind_error] at h
          cases h
      | ok pa =>
          simp only [hpa, except_bind_ok] at h
          cases hmv : manifestVulnsKey ma with
          | error e =>
              simp only [hmv, except_bind_error] at h
              cases h
          | ok mv =>
              simp only [hmv, except_bind_ok] at h
              injection h with h
              subst h
              refine ⟨?_, rfl, ?_⟩
              · simp only [manifestVulnList_of_key ma mv hmv]
              · intro rf
                have hma2 : analyze_manifest
                    (Project.manifest { p with resourceFindings := rf })
                      = Except.ok ma := hma
                have hpa2 : analyze_permissions { p with resourceFindings := rf }
                    = Except.ok pa := hpa
                have hca2 : analyze_code { p with resourceFindings := rf }
                    = analyze_code p := rfl
                have hfa : full_analysis { p with resourceFindings := rf }
                    = Except.ok
                        { manifest_analysis := ma,
                          code_analysis := analyze_code p,
                          permission_analysis := pa,
                          resource_analysis := { vulnerabilities := rf },
                          vulnerabilities :=
                            mv ++ (analyze_code p).vulnerabilities ++ pa.vulnerabilities,
                          security_issues := [],
                          risk_score := calculate_risk_score
                            (mv ++ (analyze_code p).vulnerabilities ++ pa.vulnerabilities) } := by
                  rw [full_analysis, hma2, except_bind_ok]
                  simp only [hpa2, except_bind_ok, hmv, hca2]
                  rfl
                rw [hfa]
                exact ⟨rfl, rfl, rfl⟩

theorem combined_list_structure_witness :
    (runResult unsortedProject).vulnerabilities
        = manifestVulnList (runResult unsortedProject).manifest_analysis
            ++ (runResult unsortedProject).code_analysis.vulnerabilities
            ++ (runResult unsortedProject).permission_analysis.vulnerabilities ∧
    (runResult unsortedProject).risk_score
        = calculate_risk_score (runResult unsortedProject).vulnerabilities ∧
    ∀ rf : List Finding,
        runSucceeds (full_analysis { unsortedProject with resourceFindings := rf }) = true ∧
        combinedOf (full_analysis { unsortedProject with resourceFindings := rf })
          = (runResult unsortedProject).vulnerabilities ∧
        riskOf (full_analysis { unsortedProject with resourceFindings := rf })
          = (runResult unsortedProject).risk_score :=
  combined_list_structure unsortedProject (runResult unsortedProject) rfl
